import Mathlib

/-!
Shallow embedding of the Flowbeast flow-analysis engine
(`src/lib/aiAnalysis.ts`) and the CSV record normalizer
(`src/lib/csvParser.ts`).

Modelling conventions:
* premiums and all other numeric quantities are exact rationals (`Rat`);
  the source uses JS doubles, whose rounding is irrelevant at the
  thresholds the claims talk about;
* trade timestamps are epoch seconds (`Nat`); the hour of day of a
  timestamp is `t / 3600 % 24`, mirroring `new Date(x).getHours()`;
* JS object iteration order (insertion order of first occurrence) is
  modelled by `firstSeen`;
* the wall clock (`new Date()` at analysis time, stored into each
  anomaly's `timestamp` field) is an explicit parameter `now : Nat`;
* string enumerations (`severity`, `patternType`, sentiment, ...) are
  plain strings, exactly the literals the source uses.
-/

namespace Flowbeast

/-- JS `toLowerCase()`, modelled per character (the source only ever
compares ASCII enumeration strings). -/
def strLower (s : String) : String := ⟨s.data.map Char.toLower⟩

/-- JS `toUpperCase()`, modelled per character. -/
def strUpper (s : String) : String := ⟨s.data.map Char.toUpper⟩

/-- JS `trim()`: strip whitespace from both ends. -/
def strTrim (s : String) : String :=
  ⟨((s.data.dropWhile Char.isWhitespace).reverse.dropWhile Char.isWhitespace).reverse⟩

/-- One options-flow record, as the analysis engine reads it from the
`options_flow` table (fields used by the engine only). -/
structure FlowRecord where
  time_of_trade : Nat
  ticker_symbol : String
  premium : Rat
  option_type : String
  trade_type : String
deriving Repr, DecidableEq

/-- Insertion order of first occurrence — the iteration order of a JS
object whose keys are inserted by a left-to-right fold (`groupByTicker`,
the hourly-activity `Map`). -/
def firstSeen {α : Type} [DecidableEq α] (xs : List α) : List α :=
  xs.foldl (fun acc x => if x ∈ acc then acc else acc ++ [x]) []

/-- `groupByTicker` (aiAnalysis.ts:444-451): group records by ticker;
groups appear in order of each ticker's first occurrence and keep
record order. -/
def groupByTicker (flows : List FlowRecord) : List (String × List FlowRecord) :=
  (firstSeen (flows.map (fun f => f.ticker_symbol))).map
    (fun t => (t, flows.filter (fun f => f.ticker_symbol = t)))

/-- `option_type` counts as a call (aiAnalysis.ts:454). -/
def isCall (f : FlowRecord) : Bool :=
  strLower f.option_type == "call" || strLower f.option_type == "c"

/-- `option_type` counts as a put (aiAnalysis.ts:455). -/
def isPut (f : FlowRecord) : Bool :=
  strLower f.option_type == "put" || strLower f.option_type == "p"

/-- Result of `calculateCallPutRatio`. -/
structure CallPutRatio where
  ratio : Rat
  calls : Nat
  puts : Nat
deriving Repr, DecidableEq

/-- `calculateCallPutRatio` (aiAnalysis.ts:453-459): ratio is
`calls / puts`, except that a zero put count makes the ratio the raw
call count (the source's division-by-zero guard). -/
def calculateCallPutRatio (flows : List FlowRecord) : CallPutRatio :=
  let calls := (flows.filter isCall).length
  let puts := (flows.filter isPut).length
  let ratio : Rat := if puts = 0 then (calls : Rat) else (calls : Rat) / (puts : Rat)
  ⟨ratio, calls, puts⟩

/-- Structured content of an insight's `description` string (the source
interpolates these numbers into prose; `toFixed` display rounding is not
modelled). -/
inductive InsightDesc where
  /-- "Detected `count` high-value flows, up/down `absPercent`% ...". -/
  | highValue (count : Nat) (up : Bool) (absPercent : Rat) (dataPoints : List FlowRecord)
  /-- "`ticker` showing `ratio`x normal volume with `todayCount` flows vs `histDailyAvg` average". -/
  | unusualVolume (ticker : String) (ratio : Rat) (todayCount : Nat)
      (histDailyAvg : Rat) (dataPoints : List FlowRecord)
  /-- "Call/Put ratio shifted to `today` from `hist`, indicating bullish/bearish sentiment". -/
  | sentimentShift (today hist : CallPutRatio) (bullish : Bool)
deriving Repr, DecidableEq

/-- An `AIInsight` as emitted by `generateInsights`. -/
structure AIInsight where
  kind : String
  title : String
  confidence : Rat
  desc : InsightDesc
deriving Repr, DecidableEq

/-- The percentage change reported by the high-value insight
(aiAnalysis.ts:116-117): `(todayCount − histCount) / max(histCount, 1) × 100`. -/
def highValueChangePercent (flows historicalData : List FlowRecord) : Rat :=
  let todayCount := (flows.filter (fun f => (500000 : Rat) < f.premium)).length
  let histCount := (historicalData.filter (fun f => (500000 : Rat) < f.premium)).length
  (((todayCount : Rat) - (histCount : Rat)) / max (histCount : Rat) 1) * 100

/-- High-value flow analysis (aiAnalysis.ts:113-131): one trend insight
when any current record has premium above $500K. -/
def highValueInsights (flows historicalData : List FlowRecord) : List AIInsight :=
  let highValueFlows := flows.filter (fun f => (500000 : Rat) < f.premium)
  if 0 < highValueFlows.length then
    let changePercent := highValueChangePercent flows historicalData
    [{ kind := "trend", title := "High-Value Flow Activity", confidence := 85/100,
       desc := .highValue highValueFlows.length (decide (0 < changePercent))
         |changePercent| highValueFlows }]
  else []

/-- Unusual volume patterns (aiAnalysis.ts:133-150): per current ticker,
compare today's count with the 30-day daily average. -/
def unusualVolumeInsights (flows historicalData : List FlowRecord) : List AIInsight :=
  (groupByTicker flows).filterMap (fun g =>
    let historicalAvg : Rat :=
      ((historicalData.filter (fun f => f.ticker_symbol = g.1)).length : Rat) / 30
    let volumeIncrease : Rat := (g.2.length : Rat) / max historicalAvg 1
    if 3 < volumeIncrease ∧ 5 < g.2.length then
      some { kind := "anomaly", title := "Unusual Volume: " ++ g.1,
             confidence := min (9/10) (6/10 + (volumeIncrease - 3) * (1/10)),
             desc := .unusualVolume g.1 volumeIncrease g.2.length historicalAvg (g.2.take 5) }
    else none)

/-- Call/put ratio shift (aiAnalysis.ts:152-164). -/
def sentimentShiftInsights (flows historicalData : List FlowRecord) : List AIInsight :=
  let callPutRatio := calculateCallPutRatio flows
  let historicalCallPutRatio := calculateCallPutRatio historicalData
  if (3/10 : Rat) < |callPutRatio.ratio - historicalCallPutRatio.ratio| then
    [{ kind := "trend", title := "Sentiment Shift Detected", confidence := 75/100,
       desc := .sentimentShift callPutRatio historicalCallPutRatio
         (decide (historicalCallPutRatio.ratio < callPutRatio.ratio)) }]
  else []

/-- `generateInsights` (aiAnalysis.ts:110-167): the three insight
sections, in source push order. -/
def generateInsights (flows historicalData : List FlowRecord) : List AIInsight :=
  highValueInsights flows historicalData
    ++ unusualVolumeInsights flows historicalData
    ++ sentimentShiftInsights flows historicalData

/-- The repository's second copy of the high-value percentage change
(src/unnamed/part_000, lines 109-115): a ternary that divides by the
historical count when it is positive and otherwise yields exactly 100. -/
def highValueChangePercentPart0 (flows historicalData : List FlowRecord) : Rat :=
  let todayCount := (flows.filter (fun f => (500000 : Rat) < f.premium)).length
  let histCount := (historicalData.filter (fun f => (500000 : Rat) < f.premium)).length
  if 0 < histCount then (((todayCount : Rat) - (histCount : Rat)) / (histCount : Rat)) * 100
  else 100

/-- The second copy of `generateInsights` (src/unnamed/part_000, lines
106-129): it emits only the high-value insight. -/
def generateInsightsPart0 (flows historicalData : List FlowRecord) : List AIInsight :=
  let highValueFlows := flows.filter (fun f => (500000 : Rat) < f.premium)
  if 0 < highValueFlows.length then
    let changePercent := highValueChangePercentPart0 flows historicalData
    [{ kind := "trend", title := "High-Value Flow Activity", confidence := 85/100,
       desc := .highValue highValueFlows.length (decide (0 < changePercent))
         |changePercent| highValueFlows }]
  else []

/-- A `DetectedPattern` as emitted by the three pattern detectors
(the `name`/`description` prose and the constant `conditions` object are
not modelled; the claims concern type, ticker and occurrence count). -/
structure DetectedPattern where
  patternType : String
  ticker : String
  occurrences : Nat
deriving Repr, DecidableEq

/-- `detectSweepPatterns` (aiAnalysis.ts:188-218): per ticker among
`sweep` records, at least 3 sweeps, at least 2 of them above $100K;
occurrence count = number of those above $100K. -/
def detectSweepPatterns (flows : List FlowRecord) : List DetectedPattern :=
  (groupByTicker (flows.filter (fun f => f.trade_type = "sweep"))).filterMap (fun g =>
    if g.2.length < 3 then (none : Option DetectedPattern)
    else if 2 ≤ (g.2.filter (fun s => (100000 : Rat) < s.premium)).length then
      some { patternType := "sweep", ticker := g.1,
             occurrences := (g.2.filter (fun s => (100000 : Rat) < s.premium)).length }
    else none)

/-- `detectBlockPatterns` (aiAnalysis.ts:220-246): per ticker among
`block` records, at least 2 blocks totalling more than $1M premium;
occurrence count = block count. -/
def detectBlockPatterns (flows : List FlowRecord) : List DetectedPattern :=
  (groupByTicker (flows.filter (fun f => f.trade_type = "block"))).filterMap (fun g =>
    if g.2.length < 2 then (none : Option DetectedPattern)
    else if (1000000 : Rat) < (g.2.map (fun b => b.premium)).sum then
      some { patternType := "block", ticker := g.1, occurrences := g.2.length }
    else none)

/-- The `.sort((a, b) => time(a) − time(b))` of aiAnalysis.ts:256-258:
a stable sort by trade timestamp ascending. -/
def sortByTime (l : List FlowRecord) : List FlowRecord :=
  List.insertionSort (fun a b => a.time_of_trade ≤ b.time_of_trade) l

/-- The momentum loop of aiAnalysis.ts:261-266: number of adjacent pairs
whose premium strictly increases. -/
def countIncreases : List FlowRecord → Nat
  | [] => 0
  | [_] => 0
  | a :: b :: rest => (if a.premium < b.premium then 1 else 0) + countIncreases (b :: rest)

/-- `detectMomentumPatterns` (aiAnalysis.ts:248-284): per ticker with at
least 5 records, sort by time ascending and count adjacent premium
increases; emit when that count is at least 3, with the count as the
occurrence count. -/
def detectMomentumPatterns (flows : List FlowRecord) : List DetectedPattern :=
  (groupByTicker flows).filterMap (fun g =>
    if g.2.length < 5 then (none : Option DetectedPattern)
    else if 3 ≤ countIncreases (sortByTime g.2) then
      some { patternType := "momentum", ticker := g.1,
             occurrences := countIncreases (sortByTime g.2) }
    else none)

/-- `detectPatterns` (aiAnalysis.ts:169-186): the three detectors over
the union of current and historical records. -/
def detectPatterns (flows historicalData : List FlowRecord) : List DetectedPattern :=
  let allData := flows ++ historicalData
  detectSweepPatterns allData ++ detectBlockPatterns allData ++ detectMomentumPatterns allData

/-- Structured content of an anomaly's `dataPoints`. -/
inductive AnomalyData where
  /-- The hour→count entries of the `hourlyActivity` map, in insertion order. -/
  | timing (hourCounts : List (Nat × Nat))
  /-- `[{type: historical, value}, {type: current, value}]`. -/
  | premium (historicalAvg todayAvg : Rat)
deriving Repr, DecidableEq

/-- A `FlowAnomaly`; `timestamp` is the wall-clock instant of the
analysis run (`new Date()` in the source). -/
structure FlowAnomaly where
  kind : String
  ticker : String
  severity : String
  dataPoints : AnomalyData
  timestamp : Nat
deriving Repr, DecidableEq

/-- Hour of day of an epoch-seconds timestamp (`new Date(x).getHours()`). -/
def hourOf (t : Nat) : Nat := t / 3600 % 24

/-- Count of records in a given hour bucket — the value of the
`hourlyActivity` map at `h` (0 when the key is absent). -/
def hourlyCount (flows : List FlowRecord) (h : Nat) : Nat :=
  (flows.filter (fun f => hourOf f.time_of_trade = h)).length

/-- `Array.from(hourlyActivity.entries())`: entries in insertion order,
i.e. in order of each hour's first occurrence in `flows`. -/
def hourlyActivityEntries (flows : List FlowRecord) : List (Nat × Nat) :=
  (firstSeen (flows.map (fun f => hourOf f.time_of_trade))).map
    (fun h => (h, hourlyCount flows h))

/-- The 16 after-hours buckets (aiAnalysis.ts:310). -/
def afterHoursList : List Nat := [0, 1, 2, 3, 4, 5, 6, 7, 8, 17, 18, 19, 20, 21, 22, 23]

/-- The after-hours sum of aiAnalysis.ts:311-315. -/
def afterHoursCount (flows : List FlowRecord) : Nat :=
  (afterHoursList.map (fun h => hourlyCount flows h)).sum

/-- `detectTimingAnomalies` (aiAnalysis.ts:300-329): one market-wide
medium anomaly when after-hours activity exceeds 30% of all records. -/
def detectTimingAnomalies (now : Nat) (flows : List FlowRecord) : List FlowAnomaly :=
  if (flows.length : Rat) * (3/10) < (afterHoursCount flows : Rat) then
    [{ kind := "timing", ticker := "MARKET", severity := "medium",
       dataPoints := .timing (hourlyActivityEntries flows), timestamp := now }]
  else []

/-- Mean premium of a record list (aiAnalysis.ts:336-337). -/
def meanPremium (flows : List FlowRecord) : Rat :=
  (flows.map (fun f => f.premium)).sum / (flows.length : Rat)

/-- `detectPremiumAnomalies` (aiAnalysis.ts:331-356). Faithful to the
source whenever `flows` is nonempty and the historical mean is nonzero;
in the two degenerate cases the JS source computes NaN or Infinity,
which exact rational arithmetic cannot represent, so the theorems about
this definition carry those two side conditions. -/
def detectPremiumAnomalies (now : Nat) (flows historicalData : List FlowRecord) :
    List FlowAnomaly :=
  if historicalData.length = 0 then []
  else
    let historicalAvgPremium := meanPremium historicalData
    let todayAvgPremium := meanPremium flows
    let premiumChange := (todayAvgPremium - historicalAvgPremium) / historicalAvgPremium
    if (1/2 : Rat) < |premiumChange| then
      [{ kind := "premium", ticker := "MARKET",
         severity := if (1 : Rat) < |premiumChange| then "high" else "medium",
         dataPoints := .premium historicalAvgPremium todayAvgPremium, timestamp := now }]
    else []

/-- `detectAnomalies` (aiAnalysis.ts:286-298). -/
def detectAnomalies (now : Nat) (flows historicalData : List FlowRecord) : List FlowAnomaly :=
  detectTimingAnomalies now flows ++ detectPremiumAnomalies now flows historicalData

/-- The analysis summary (aiAnalysis.ts:42-49). -/
structure AnalysisSummary where
  totalFlowsAnalyzed : Nat
  patternsDetected : Nat
  anomaliesFound : Nat
  topTickers : List (String × Nat)
  marketSentiment : String
  riskLevel : String
deriving Repr, DecidableEq

/-- `generateSummary` (aiAnalysis.ts:358-381). -/
def generateSummary (flows : List FlowRecord) (patterns : List DetectedPattern)
    (anomalies : List FlowAnomaly) : AnalysisSummary :=
  let tickerActivity := (groupByTicker flows).map (fun g => (g.1, g.2.length))
  let topTickers := (List.insertionSort (fun a b => b.2 ≤ a.2) tickerActivity).take 5
  let callPutRatio := calculateCallPutRatio flows
  let marketSentiment :=
    if (12/10 : Rat) < callPutRatio.ratio then "bullish"
    else if callPutRatio.ratio < (8/10 : Rat) then "bearish"
    else "neutral"
  let highSeverityAnomalies := (anomalies.filter (fun a => a.severity = "high")).length
  let riskLevel :=
    if 2 < highSeverityAnomalies then "high"
    else if 3 < anomalies.length then "medium"
    else "low"
  { totalFlowsAnalyzed := flows.length, patternsDetected := patterns.length,
    anomaliesFound := anomalies.length, topTickers := topTickers,
    marketSentiment := marketSentiment, riskLevel := riskLevel }

/-- The full analysis result (aiAnalysis.ts:3-8). -/
structure FlowAnalysisResult where
  insights : List AIInsight
  patterns : List DetectedPattern
  anomalies : List FlowAnomaly
  summary : AnalysisSummary
deriving Repr, DecidableEq

/-- The pure computation of `analyzeFlowData` (aiAnalysis.ts:58-77),
with the database reads replaced by the two record-list arguments and
the wall clock by `now` (persistence writes return nothing and do not
affect the result). -/
def analyzeFlowData (now : Nat) (flows historicalData : List FlowRecord) :
    FlowAnalysisResult :=
  let insights := generateInsights flows historicalData
  let patterns := detectPatterns flows historicalData
  let anomalies := detectAnomalies now flows historicalData
  let summary := generateSummary flows patterns anomalies
  ⟨insights, patterns, anomalies, summary⟩

/-- Forget an anomaly's detection timestamp (used to compare the outputs
of two runs made at different wall-clock instants). -/
def FlowAnomaly.stripTimestamp (a : FlowAnomaly) : FlowAnomaly :=
  { a with timestamp := 0 }

/-! ### CSV record normalizer (`src/lib/csvParser.ts`)

A parsed CSV row after header aliasing: the five required columns, each
either absent or holding the (trimmed) cell text.  The optional columns
(`score`, `spot_price`, ...) never influence row acceptance or the error
list and are not modelled. -/

/-- One header-mapped CSV row. -/
structure CsvRow where
  time_of_trade : Option String
  ticker_symbol : Option String
  premium : Option String
  option_type : Option String
  trade_type : Option String
deriving Repr, DecidableEq

/-- JS truthiness of a row cell: present and not the empty string
(every cell is a string, `dynamicTyping` is off). -/
def truthy : Option String → Bool
  | some s => !(s == "")
  | none => false

/-- The `missingFields` list of csvParser.ts:193-198, in source push
order. -/
def missingRequired (row : CsvRow) : List String :=
  (if truthy row.time_of_trade then [] else ["time_of_trade"]) ++
  (if truthy row.ticker_symbol then [] else ["ticker_symbol"]) ++
  (if truthy row.premium then [] else ["premium"]) ++
  (if truthy row.option_type then [] else ["option_type"]) ++
  (if truthy row.trade_type then [] else ["trade_type"])

/-- `needle` is an initial segment of `hay`. -/
def leadsList : List Char → List Char → Bool
  | [], _ => true
  | _ :: _, [] => false
  | a :: as, b :: bs => a == b && leadsList as bs

/-- `needle` occurs contiguously in `hay`. -/
def occursList (needle : List Char) : List Char → Bool
  | [] => leadsList needle []
  | b :: bs => leadsList needle (b :: bs) || occursList needle bs

/-- JS `hay.includes(needle)`. -/
def strIncludes (hay needle : String) : Bool := occursList needle.data hay.data

/-- `normalizeOptionType` (csvParser.ts:100-105). -/
def normalizeOptionType (value : String) : String :=
  let normalized := strTrim (strLower value)
  if strIncludes normalized "call" || normalized == "c" then "call"
  else if strIncludes normalized "put" || normalized == "p" then "put"
  else normalized

/-- `normalizeTradeType` (csvParser.ts:107-115). -/
def normalizeTradeType (value : String) : String :=
  let normalized := strTrim (strLower value)
  if strIncludes normalized "buy" || normalized == "b" then "buy"
  else if strIncludes normalized "sell" || normalized == "s" then "sell"
  else if normalized == "block" || normalized == "sweep" then normalized
  else normalized

/-- An output record of the normalizer (csvParser.ts:3-14).
`time_of_trade` and `premium` keep the raw cell text: `parseDateTime`
always succeeds (it falls back to the wall clock, an effect outside this
embedding) and `parseNumericValue(...) || 0` always succeeds, so
neither conversion can reject a row or add an error — they only shape
values the claims never inspect. -/
structure OptionsFlowRecord where
  time_of_trade : String
  ticker_symbol : String
  premium : String
  option_type : String
  trade_type : String
deriving Repr, DecidableEq

/-- A row-indexed error string (rows are reported 1-based). -/
def rowError (index : Nat) (msg : String) : String :=
  "Row " ++ toString (index + 1) ++ ": " ++ msg

/-- The body of the per-row callback of csvParser.ts:180-232: required
field check, normalization, enum validation. -/
def processRow (index : Nat) (row : CsvRow) : Except String OptionsFlowRecord :=
  if !truthy row.time_of_trade || !truthy row.ticker_symbol || !truthy row.premium
      || !truthy row.option_type || !truthy row.trade_type then
    .error (rowError index
      ("Missing required fields: " ++ String.intercalate ", " (missingRequired row)))
  else
    let record : OptionsFlowRecord :=
      { time_of_trade := row.time_of_trade.getD ""
        ticker_symbol := strTrim (strUpper (row.ticker_symbol.getD ""))
        premium := row.premium.getD ""
        option_type := normalizeOptionType (row.option_type.getD "")
        trade_type := normalizeTradeType (row.trade_type.getD "") }
    if !(["call", "put", "c", "p"].contains (strLower record.option_type)) then
      .error (rowError index ("Invalid option_type \"" ++ record.option_type ++
        "\" (must be \"call\", \"put\", \"c\", or \"p\")"))
    else if !(["buy", "sell", "block", "sweep"].contains (strLower record.trade_type)) then
      .error (rowError index ("Invalid trade_type \"" ++ record.trade_type ++
        "\" (must be \"buy\", \"sell\", \"block\", or \"sweep\")"))
    else
      .ok record

/-- The indexed `forEach` over the parsed rows: each row yields exactly
one outcome, a record or an error string. -/
def processAll (index : Nat) : List CsvRow → List (Except String OptionsFlowRecord)
  | [] => []
  | r :: rs => processRow index r :: processAll (index + 1) rs

/-- `ParseResult` (csvParser.ts:16-21). -/
structure ParseResult where
  success : Bool
  data : List OptionsFlowRecord
  errors : List String
  totalRecords : Nat
deriving Repr, DecidableEq

/-- The row-processing phase of `parseCSV` (csvParser.ts:147-257),
starting from the header-mapped rows (Papa-parse structural errors,
which only append further strings, are outside the row pipeline). -/
def parseCSVRows (rows : List CsvRow) : ParseResult :=
  let processed := processAll 0 rows
  let validRecords := processed.filterMap Except.toOption
  let errors := processed.filterMap (fun r =>
    match r with
    | .error e => some e
    | .ok _ => none)
  { success := 0 < validRecords.length, data := validRecords, errors := errors,
    totalRecords := rows.length }

/-! ### Shared lemmas -/

theorem mem_foldl_firstSeen {α : Type} [DecidableEq α] (xs : List α) (acc : List α) (x : α) :
    x ∈ xs.foldl (fun acc x => if x ∈ acc then acc else acc ++ [x]) acc ↔
      x ∈ acc ∨ x ∈ xs := by
  induction xs generalizing acc with
  | nil => simp
  | cons y ys ih =>
    simp only [List.foldl_cons]
    rw [ih]
    by_cases h : y ∈ acc
    · simp only [if_pos h, List.mem_cons]
      constructor
      · rintro (hx | hx)
        · exact Or.inl hx
        · exact Or.inr (Or.inr hx)
      · rintro (hx | rfl | hx)
        · exact Or.inl hx
        · exact Or.inl h
        · exact Or.inr hx
    · simp only [if_neg h, List.mem_append, List.mem_singleton, List.mem_cons]
      tauto

theorem mem_firstSeen {α : Type} [DecidableEq α] (xs : List α) (x : α) :
    x ∈ firstSeen xs ↔ x ∈ xs := by
  unfold firstSeen
  rw [mem_foldl_firstSeen]
  simp

theorem mem_groupByTicker (flows : List FlowRecord) (t : String) (g : List FlowRecord) :
    (t, g) ∈ groupByTicker flows ↔
      (∃ f ∈ flows, f.ticker_symbol = t) ∧
        g = flows.filter (fun f => f.ticker_symbol = t) := by
  unfold groupByTicker
  rw [List.mem_map]
  constructor
  · rintro ⟨a, ha, heq⟩
    obtain ⟨rfl, rfl⟩ : a = t ∧ (flows.filter fun f => f.ticker_symbol = a) = g :=
      Prod.mk.injEq .. ▸ heq
    rw [mem_firstSeen, List.mem_map] at ha
    obtain ⟨f, hf, hft⟩ := ha
    exact ⟨⟨f, hf, hft⟩, rfl⟩
  · rintro ⟨⟨f, hf, hft⟩, rfl⟩
    refine ⟨t, ?_, rfl⟩
    rw [mem_firstSeen, List.mem_map]
    exact ⟨f, hf, hft⟩

/-- The sweep records of one ticker inside a record set — exactly the
group that `detectSweepPatterns` examines for that ticker. -/
def tickerSweeps (l : List FlowRecord) (t : String) : List FlowRecord :=
  (l.filter (fun f => f.trade_type = "sweep")).filter (fun f => f.ticker_symbol = t)

theorem detectSweepPatterns_patternType (l : List FlowRecord) :
    ∀ p ∈ detectSweepPatterns l, p.patternType = "sweep" := by
  intro p hp
  unfold detectSweepPatterns at hp
  rw [List.mem_filterMap] at hp
  obtain ⟨g, -, heq⟩ := hp
  by_cases h1 : g.2.length < 3
  · rw [if_pos h1] at heq
    simp at heq
  · rw [if_neg h1] at heq
    by_cases h2 : 2 ≤ (g.2.filter (fun s => (100000 : Rat) < s.premium)).length
    · rw [if_pos h2] at heq
      cases Option.some.inj heq
      rfl
    · rw [if_neg h2] at heq
      simp at heq

theorem detectBlockPatterns_patternType (l : List FlowRecord) :
    ∀ p ∈ detectBlockPatterns l, p.patternType = "block" := by
  intro p hp
  unfold detectBlockPatterns at hp
  rw [List.mem_filterMap] at hp
  obtain ⟨g, -, heq⟩ := hp
  by_cases h1 : g.2.length < 2
  · rw [if_pos h1] at heq
    simp at heq
  · rw [if_neg h1] at heq
    by_cases h2 : (1000000 : Rat) < (g.2.map (fun b => b.premium)).sum
    · rw [if_pos h2] at heq
      cases Option.some.inj heq
      rfl
    · rw [if_neg h2] at heq
      simp at heq

theorem detectMomentumPatterns_patternType (l : List FlowRecord) :
    ∀ p ∈ detectMomentumPatterns l, p.patternType = "momentum" := by
  intro p hp
  unfold detectMomentumPatterns at hp
  rw [List.mem_filterMap] at hp
  obtain ⟨g, -, heq⟩ := hp
  by_cases h1 : g.2.length < 5
  · rw [if_pos h1] at heq
    simp at heq
  · rw [if_neg h1] at heq
    by_cases h2 : 3 ≤ countIncreases (sortByTime g.2)
    · rw [if_pos h2] at heq
      cases Option.some.inj heq
      rfl
    · rw [if_neg h2] at heq
      simp at heq

theorem mem_detectSweepPatterns (l : List FlowRecord) (t : String) (occ : Nat) :
    (⟨"sweep", t, occ⟩ : DetectedPattern) ∈ detectSweepPatterns l ↔
      3 ≤ (tickerSweeps l t).length ∧
      2 ≤ ((tickerSweeps l t).filter (fun s => (100000 : Rat) < s.premium)).length ∧
      occ = ((tickerSweeps l t).filter (fun s => (100000 : Rat) < s.premium)).length := by
  unfold detectSweepPatterns
  rw [List.mem_filterMap]
  constructor
  · rintro ⟨⟨t', recs⟩, hg, heq⟩
    rw [mem_groupByTicker] at hg
    obtain ⟨-, rfl⟩ := hg
    by_cases h1 : ((l.filter (fun f => f.trade_type = "sweep")).filter
        (fun f => f.ticker_symbol = t')).length < 3
    · rw [if_pos h1] at heq
      simp at heq
    · rw [if_neg h1] at heq
      by_cases h2 : 2 ≤ (((l.filter (fun f => f.trade_type = "sweep")).filter
          (fun f => f.ticker_symbol = t')).filter (fun s => (100000 : Rat) < s.premium)).length
      · rw [if_pos h2] at heq
        have h := Option.some.inj heq
        have ht : t' = t := congrArg DetectedPattern.ticker h
        have hocc := congrArg DetectedPattern.occurrences h
        subst ht
        exact ⟨Nat.le_of_not_lt h1, h2, hocc.symm⟩
      · rw [if_neg h2] at heq
        simp at heq
  · rintro ⟨h3, h2, rfl⟩
    refine ⟨(t, tickerSweeps l t), ?_, ?_⟩
    · rw [mem_groupByTicker]
      have hne : tickerSweeps l t ≠ [] := by
        intro h
        rw [h] at h3
        simp at h3
      obtain ⟨f, hf⟩ := List.exists_mem_of_ne_nil _ hne
      rw [tickerSweeps, List.mem_filter] at hf
      refine ⟨⟨f, ?_, ?_⟩, rfl⟩
      · exact hf.1
      · simpa using hf.2
    · dsimp only
      rw [if_neg (by omega), if_pos h2]

/-- Boundary example for sweep detection: three sweeps for `XYZ`,
exactly two above $100K. -/
def exC2boundary : List FlowRecord :=
  [⟨0, "XYZ", 150000, "call", "sweep"⟩,
   ⟨1, "XYZ", 150000, "call", "sweep"⟩,
   ⟨2, "XYZ", 50000, "call", "sweep"⟩]

/-- Boundary example for sweep detection: only two sweeps, both above
$100K. -/
def exC2small : List FlowRecord :=
  [⟨0, "AB", 150000, "call", "sweep"⟩,
   ⟨1, "AB", 150000, "call", "sweep"⟩]

/-- C2: over the union of current and historical records, a sweep
pattern is emitted for ticker `t` iff `t` has at least 3 sweep records
of which at least 2 have premium strictly above $100,000; the emitted
occurrence count is the number of those above-$100K sweeps.  A ticker
with exactly 3 sweeps, 2 above $100K, yields occurrence count 2; a
ticker with only 2 sweeps (both above $100K) yields no pattern. -/
theorem c2_sweep_pattern_detection (flows historical : List FlowRecord) (t : String) :
    ((∃ p ∈ detectPatterns flows historical, p.patternType = "sweep" ∧ p.ticker = t) ↔
      3 ≤ (tickerSweeps (flows ++ historical) t).length ∧
      2 ≤ ((tickerSweeps (flows ++ historical) t).filter
        (fun s => (100000 : Rat) < s.premium)).length) ∧
    (∀ p ∈ detectPatterns flows historical, p.patternType = "sweep" → p.ticker = t →
      p.occurrences = ((tickerSweeps (flows ++ historical) t).filter
        (fun s => (100000 : Rat) < s.premium)).length) ∧
    detectPatterns exC2boundary [] = [⟨"sweep", "XYZ", 2⟩] ∧
    detectPatterns exC2small [] = [] := by
  refine ⟨⟨?_, ?_⟩, ?_, by decide, by decide⟩
  · rintro ⟨p, hp, hsw, htk⟩
    simp only [detectPatterns, List.mem_append] at hp
    rcases hp with (hp | hp) | hp
    · have hp' : (⟨"sweep", t, p.occurrences⟩ : DetectedPattern) ∈
          detectSweepPatterns (flows ++ historical) := by
        rw [← hsw, ← htk]
        exact hp
      have h := (mem_detectSweepPatterns (flows ++ historical) t p.occurrences).1 hp'
      exact ⟨h.1, h.2.1⟩
    · exact absurd (hsw.symm.trans (detectBlockPatterns_patternType _ p hp)) (by decide)
    · exact absurd (hsw.symm.trans (detectMomentumPatterns_patternType _ p hp)) (by decide)
  · rintro ⟨h3, h2⟩
    refine ⟨⟨"sweep", t, ((tickerSweeps (flows ++ historical) t).filter
      (fun s => (100000 : Rat) < s.premium)).length⟩, ?_, rfl, rfl⟩
    simp only [detectPatterns, List.mem_append]
    exact Or.inl (Or.inl ((mem_detectSweepPatterns _ t _).2 ⟨h3, h2, rfl⟩))
  · intro p hp hsw htk
    simp only [detectPatterns, List.mem_append] at hp
    rcases hp with (hp | hp) | hp
    · have hp' : (⟨"sweep", t, p.occurrences⟩ : DetectedPattern) ∈
          detectSweepPatterns (flows ++ historical) := by
        rw [← hsw, ← htk]
        exact hp
      exact ((mem_detectSweepPatterns (flows ++ historical) t p.occurrences).1 hp').2.2
    · exact absurd (hsw.symm.trans (detectBlockPatterns_patternType _ p hp)) (by decide)
    · exact absurd (hsw.symm.trans (detectMomentumPatterns_patternType _ p hp)) (by decide)

/-- Witness for `c2_sweep_pattern_detection`: at the boundary input the
emitted sweep pattern's occurrence count is the number of above-$100K
sweeps. -/
theorem c2_sweep_pattern_detection_witness :
    (⟨"sweep", "XYZ", 2⟩ : DetectedPattern).occurrences =
      ((tickerSweeps (exC2boundary ++ []) "XYZ").filter
        (fun s => (100000 : Rat) < s.premium)).length := by
  have h := (c2_sweep_pattern_detection exC2boundary [] "XYZ").2.1
  exact h ⟨"sweep", "XYZ", 2⟩ (by decide) rfl rfl

/-- All records of one ticker inside a record set — the group that
`detectMomentumPatterns` examines for that ticker. -/
def tickerRecords (l : List FlowRecord) (t : String) : List FlowRecord :=
  l.filter (fun f => f.ticker_symbol = t)

theorem mem_detectMomentumPatterns (l : List FlowRecord) (t : String) (occ : Nat) :
    (⟨"momentum", t, occ⟩ : DetectedPattern) ∈ detectMomentumPatterns l ↔
      5 ≤ (tickerRecords l t).length ∧
      3 ≤ countIncreases (sortByTime (tickerRecords l t)) ∧
      occ = countIncreases (sortByTime (tickerRecords l t)) := by
  unfold detectMomentumPatterns
  rw [List.mem_filterMap]
  constructor
  · rintro ⟨⟨t', recs⟩, hg, heq⟩
    rw [mem_groupByTicker] at hg
    obtain ⟨-, rfl⟩ := hg
    by_cases h1 : (l.filter (fun f => f.ticker_symbol = t')).length < 5
    · rw [if_pos h1] at heq
      simp at heq
    · rw [if_neg h1] at heq
      by_cases h2 : 3 ≤ countIncreases (sortByTime (l.filter (fun f => f.ticker_symbol = t')))
      · rw [if_pos h2] at heq
        have h := Option.some.inj heq
        have ht : t' = t := congrArg DetectedPattern.ticker h
        have hocc := congrArg DetectedPattern.occurrences h
        subst ht
        exact ⟨Nat.le_of_not_lt h1, h2, hocc.symm⟩
      · rw [if_neg h2] at heq
        simp at heq
  · rintro ⟨h5, h3, rfl⟩
    refine ⟨(t, tickerRecords l t), ?_, ?_⟩
    · rw [mem_groupByTicker]
      have hne : tickerRecords l t ≠ [] := by
        intro h
        rw [h] at h5
        simp at h5
      obtain ⟨f, hf⟩ := List.exists_mem_of_ne_nil _ hne
      rw [tickerRecords, List.mem_filter] at hf
      refine ⟨⟨f, hf.1, ?_⟩, rfl⟩
      simpa using hf.2
    · dsimp only
      rw [if_neg (by omega), if_pos h3]

/-- Example for momentum detection: five records of one ticker with
strictly increasing premiums. -/
def exC3 : List FlowRecord :=
  [⟨0, "MMT", 100, "call", "buy"⟩,
   ⟨1, "MMT", 200, "call", "buy"⟩,
   ⟨2, "MMT", 300, "call", "buy"⟩,
   ⟨3, "MMT", 400, "call", "buy"⟩,
   ⟨4, "MMT", 500, "call", "buy"⟩]

/-- C3: over the union of current and historical records, a momentum
pattern is emitted for ticker `t` iff `t` has at least 5 records and,
after sorting them by trade timestamp ascending, at least 3 adjacent
pairs show a strict premium increase; the occurrence count is that pair
count, and a ticker with fewer than 5 records never yields a momentum
pattern. -/
theorem c3_momentum_pattern_detection (flows historical : List FlowRecord) (t : String) :
    ((∃ p ∈ detectPatterns flows historical, p.patternType = "momentum" ∧ p.ticker = t) ↔
      5 ≤ (tickerRecords (flows ++ historical) t).length ∧
      3 ≤ countIncreases (sortByTime (tickerRecords (flows ++ historical) t))) ∧
    (∀ p ∈ detectPatterns flows historical, p.patternType = "momentum" → p.ticker = t →
      p.occurrences = countIncreases (sortByTime (tickerRecords (flows ++ historical) t)) ∧
      5 ≤ (tickerRecords (flows ++ historical) t).length) := by
  constructor
  · constructor
    · rintro ⟨p, hp, hmo, htk⟩
      simp only [detectPatterns, List.mem_append] at hp
      rcases hp with (hp | hp) | hp
      · exact absurd (hmo.symm.trans (detectSweepPatterns_patternType _ p hp)) (by decide)
      · exact absurd (hmo.symm.trans (detectBlockPatterns_patternType _ p hp)) (by decide)
      · have hp' : (⟨"momentum", t, p.occurrences⟩ : DetectedPattern) ∈
            detectMomentumPatterns (flows ++ historical) := by
          rw [← hmo, ← htk]
          exact hp
        have h := (mem_detectMomentumPatterns (flows ++ historical) t p.occurrences).1 hp'
        exact ⟨h.1, h.2.1⟩
    · rintro ⟨h5, h3⟩
      refine ⟨⟨"momentum", t,
        countIncreases (sortByTime (tickerRecords (flows ++ historical) t))⟩, ?_, rfl, rfl⟩
      simp only [detectPatterns, List.mem_append]
      exact Or.inr ((mem_detectMomentumPatterns _ t _).2 ⟨h5, h3, rfl⟩)
  · intro p hp hmo htk
    simp only [detectPatterns, List.mem_append] at hp
    rcases hp with (hp | hp) | hp
    · exact absurd (hmo.symm.trans (detectSweepPatterns_patternType _ p hp)) (by decide)
    · exact absurd (hmo.symm.trans (detectBlockPatterns_patternType _ p hp)) (by decide)
    · have hp' : (⟨"momentum", t, p.occurrences⟩ : DetectedPattern) ∈
          detectMomentumPatterns (flows ++ historical) := by
        rw [← hmo, ← htk]
        exact hp
      have h := (mem_detectMomentumPatterns (flows ++ historical) t p.occurrences).1 hp'
      exact ⟨h.2.2, h.1⟩

/-- Witness for `c3_momentum_pattern_detection`: five strictly
increasing premiums give a momentum pattern with occurrence count 4. -/
theorem c3_momentum_pattern_detection_witness :
    (⟨"momentum", "MMT", 4⟩ : DetectedPattern).occurrences =
      countIncreases (sortByTime (tickerRecords (exC3 ++ []) "MMT")) ∧
    5 ≤ (tickerRecords (exC3 ++ []) "MMT").length := by
  have h := (c3_momentum_pattern_detection exC3 [] "MMT").2
  exact h ⟨"momentum", "MMT", 4⟩ (by decide) rfl rfl

theorem hourlyCount_cons (f : FlowRecord) (fl : List FlowRecord) (h : Nat) :
    hourlyCount (f :: fl) h =
      (if hourOf f.time_of_trade = h then 1 else 0) + hourlyCount fl h := by
  unfold hourlyCount
  rw [List.filter_cons]
  by_cases hh : hourOf f.time_of_trade = h
  · simp [hh, Nat.add_comm]
  · simp [hh]

theorem sum_ite_mem (x : Nat) (hs : List Nat) (hnd : hs.Nodup) :
    (hs.map (fun h => if x = h then 1 else 0)).sum = if x ∈ hs then 1 else 0 := by
  induction hs with
  | nil => simp
  | cons h tl ih =>
    rw [List.nodup_cons] at hnd
    simp only [List.map_cons, List.sum_cons]
    by_cases hx : x = h
    · subst hx
      rw [if_pos rfl, ih hnd.2, if_neg hnd.1, if_pos (List.mem_cons_self x tl)]
    · rw [if_neg hx, ih hnd.2, Nat.zero_add]
      by_cases hm : x ∈ tl
      · rw [if_pos hm, if_pos (List.mem_cons_of_mem _ hm)]
      · rw [if_neg hm, if_neg (by simp [hx, hm])]

theorem afterHoursCount_eq_filter (flows : List FlowRecord) :
    afterHoursCount flows =
      (flows.filter (fun f => hourOf f.time_of_trade ∈ afterHoursList)).length := by
  unfold afterHoursCount
  induction flows with
  | nil => simp [hourlyCount]
  | cons f fl ih =>
    rw [List.filter_cons]
    simp only [hourlyCount_cons, List.sum_map_add,
      sum_ite_mem _ _ (by decide : afterHoursList.Nodup)]
    by_cases hm : hourOf f.time_of_trade ∈ afterHoursList
    · simp only [if_pos hm, ih, decide_eq_true_eq]
      simp [Nat.add_comm]
    · simp only [if_neg hm, ih, decide_eq_true_eq]
      simp

theorem timing_threshold (c n : Nat) :
    ((n : Rat) * (3/10) < (c : Rat)) ↔ 3 * n < 10 * c := by
  constructor
  · intro h
    have h10 : (3 * n : Rat) < 10 * c := by linarith
    exact_mod_cast h10
  · intro h
    have h10 : (3 * n : Rat) < 10 * c := by exact_mod_cast h
    linarith

/-- The boundary scenario of the spec: ten records, three of them in
hours 1, 2 and 3 and seven in hours 10 and 11, so the after-hours
fraction is exactly 30%. -/
def exC4 : List FlowRecord :=
  [⟨1 * 3600, "MKT", 1000, "call", "buy"⟩,
   ⟨2 * 3600, "MKT", 1000, "call", "buy"⟩,
   ⟨3 * 3600, "MKT", 1000, "call", "buy"⟩,
   ⟨10 * 3600, "MKT", 1000, "call", "buy"⟩,
   ⟨10 * 3600 + 60, "MKT", 1000, "call", "buy"⟩,
   ⟨10 * 3600 + 120, "MKT", 1000, "call", "buy"⟩,
   ⟨10 * 3600 + 180, "MKT", 1000, "call", "buy"⟩,
   ⟨11 * 3600, "MKT", 1000, "call", "buy"⟩,
   ⟨11 * 3600 + 60, "MKT", 1000, "call", "buy"⟩,
   ⟨11 * 3600 + 120, "MKT", 1000, "call", "buy"⟩]

/-- C4: exactly one market-wide timing anomaly of severity `medium` is
emitted iff the records with hour of day in 0-8 or 17-23 strictly exceed
30% of all records (as integers: `3·total < 10·afterHours`); the
after-hours sum over the 16 buckets equals the count of after-hours
records; and at exactly 30% (3 of 10) nothing is emitted. -/
theorem c4_timing_anomaly (now : Nat) (flows : List FlowRecord) :
    (detectTimingAnomalies now flows =
        [⟨"timing", "MARKET", "medium", .timing (hourlyActivityEntries flows), now⟩]
      ↔ 3 * flows.length < 10 * afterHoursCount flows) ∧
    (detectTimingAnomalies now flows = [] ↔
      ¬ 3 * flows.length < 10 * afterHoursCount flows) ∧
    afterHoursCount flows =
      (flows.filter (fun f => hourOf f.time_of_trade ∈ afterHoursList)).length ∧
    detectTimingAnomalies now exC4 = [] := by
  have hiff := timing_threshold (afterHoursCount flows) flows.length
  have hex : detectTimingAnomalies now exC4 = [] := by
    unfold detectTimingAnomalies
    rw [show afterHoursCount exC4 = 3 from by decide,
      show exC4.length = 10 from by decide]
    rw [if_neg (by norm_num)]
  by_cases hc : ((flows.length : Rat) * (3/10) < (afterHoursCount flows : Rat))
  · unfold detectTimingAnomalies
    rw [if_pos hc]
    refine ⟨⟨fun _ => hiff.1 hc, fun _ => rfl⟩, ?_, afterHoursCount_eq_filter flows, hex⟩
    constructor
    · intro h
      exact absurd h (by simp)
    · intro h
      exact absurd (hiff.1 hc) h
  · unfold detectTimingAnomalies
    rw [if_neg hc]
    refine ⟨?_, ⟨fun _ => fun h => hc (hiff.2 h), fun _ => rfl⟩,
      afterHoursCount_eq_filter flows, hex⟩
    constructor
    · intro h
      exact absurd h (by simp)
    · intro h
      exact absurd (hiff.2 h) hc

/-- Current records for the premium-anomaly scenario: mean premium
300,000. -/
def exC5c : List FlowRecord :=
  [⟨0, "A", 200000, "call", "buy"⟩,
   ⟨1, "A", 300000, "call", "buy"⟩,
   ⟨2, "A", 400000, "call", "buy"⟩]

/-- Historical records for the premium-anomaly scenario: mean premium
100,000. -/
def exC5h : List FlowRecord :=
  [⟨0, "A", 50000, "call", "buy"⟩,
   ⟨1, "A", 150000, "call", "buy"⟩]

/-- C5: with empty historical data no premium anomaly is ever emitted;
otherwise (restricted to nonempty current data and a positive historical
mean, where exact arithmetic coincides with the JS source) one
market-wide anomaly is emitted iff the relative mean-premium change
exceeds 0.5 in absolute value, with severity `high` iff it exceeds 1.0
and `medium` otherwise; the spec's scenario (means 300,000 vs 100,000,
change 2.0) yields a high-severity anomaly. -/
theorem c5_premium_anomaly (now : Nat) (flows historical : List FlowRecord) :
    (historical = [] → detectPremiumAnomalies now flows historical = []) ∧
    (flows ≠ [] → 0 < meanPremium historical →
      ((detectPremiumAnomalies now flows historical =
          [⟨"premium", "MARKET",
            if 1 < |(meanPremium flows - meanPremium historical) / meanPremium historical|
            then "high" else "medium",
            .premium (meanPremium historical) (meanPremium flows), now⟩]) ↔
        1/2 < |(meanPremium flows - meanPremium historical) / meanPremium historical|) ∧
      (detectPremiumAnomalies now flows historical = [] ↔
        ¬ 1/2 < |(meanPremium flows - meanPremium historical) / meanPremium historical|)) ∧
    detectPremiumAnomalies 0 exC5c exC5h =
      [⟨"premium", "MARKET", "high", .premium 100000 300000, 0⟩] := by
  refine ⟨?_, ?_, ?_⟩
  · rintro rfl
    simp [detectPremiumAnomalies]
  · rintro - hmean
    have hne : ¬ historical.length = 0 := by
      intro h
      rw [List.length_eq_zero] at h
      subst h
      simp [meanPremium] at hmean
    unfold detectPremiumAnomalies
    rw [if_neg hne]
    by_cases hch :
        (1/2 : Rat) < |(meanPremium flows - meanPremium historical) / meanPremium historical|
    · rw [if_pos hch]
      exact ⟨⟨fun _ => hch, fun _ => rfl⟩,
        ⟨fun h => absurd h (by simp), fun h => absurd hch h⟩⟩
    · rw [if_neg hch]
      exact ⟨⟨fun h => absurd h.symm (by simp), fun h => absurd h hch⟩,
        ⟨fun _ => hch, fun _ => rfl⟩⟩
  · have hc : meanPremium exC5c = 300000 := by
      norm_num [meanPremium, exC5c]
    have hh : meanPremium exC5h = 100000 := by
      norm_num [meanPremium, exC5h]
    unfold detectPremiumAnomalies
    rw [if_neg (by decide : ¬ exC5h.length = 0), hc, hh]
    have habs : |((300000 : Rat) - 100000) / 100000| = 2 := by
      rw [abs_of_pos (by norm_num : (0 : Rat) < (300000 - 100000) / 100000)]
      norm_num
    simp only []
    rw [habs, if_pos (by norm_num : (1/2 : Rat) < 2), if_pos (by norm_num : (1 : Rat) < 2)]

/-- Witness for `c5_premium_anomaly`: the empty-historical guard at a
concrete input, and the emission iff at the spec's scenario. -/
theorem c5_premium_anomaly_witness :
    detectPremiumAnomalies 0 exC5c [] = [] ∧
    (detectPremiumAnomalies 0 exC5c exC5h =
      [⟨"premium", "MARKET",
        if 1 < |(meanPremium exC5c - meanPremium exC5h) / meanPremium exC5h|
        then "high" else "medium",
        .premium (meanPremium exC5h) (meanPremium exC5c), 0⟩]) := by
  constructor
  · exact (c5_premium_anomaly 0 exC5c []).1 rfl
  · have h := ((c5_premium_anomaly 0 exC5c exC5h).2.1 (by decide)
      (by norm_num [meanPremium, exC5h])).1
    apply h.2
    have hc : meanPremium exC5c = 300000 := by
      norm_num [meanPremium, exC5c]
    have hh : meanPremium exC5h = 100000 := by
      norm_num [meanPremium, exC5h]
    rw [hc, hh]
    rw [abs_of_pos (by norm_num : (0 : Rat) < ((300000 : Rat) - 100000) / 100000)]
    norm_num

/-- Five call records and no puts, for the ratio zero-guard boundary. -/
def exC6calls : List FlowRecord :=
  [⟨0, "C1", 100, "call", "buy"⟩,
   ⟨1, "C2", 100, "call", "buy"⟩,
   ⟨2, "C3", 100, "call", "buy"⟩,
   ⟨3, "C4", 100, "call", "buy"⟩,
   ⟨4, "C5", 100, "call", "buy"⟩]

/-- C6: the call/put ratio is `calls / puts` when the put count is
nonzero and the raw call count when it is zero; 5 calls and 0 puts give
ratio 5, and 0 calls and 0 puts give ratio 0. -/
theorem c6_call_put_ratio_guard (flows : List FlowRecord) :
    ((calculateCallPutRatio flows).puts = 0 →
      (calculateCallPutRatio flows).ratio = ((calculateCallPutRatio flows).calls : Rat)) ∧
    ((calculateCallPutRatio flows).puts ≠ 0 →
      (calculateCallPutRatio flows).ratio =
        ((calculateCallPutRatio flows).calls : Rat) /
          ((calculateCallPutRatio flows).puts : Rat)) ∧
    calculateCallPutRatio exC6calls = ⟨5, 5, 0⟩ ∧
    calculateCallPutRatio [] = ⟨0, 0, 0⟩ := by
  refine ⟨?_, ?_, by decide, by decide⟩
  · intro h
    simp only [calculateCallPutRatio] at h ⊢
    rw [if_pos h]
  · intro h
    simp only [calculateCallPutRatio] at h ⊢
    rw [if_neg h]

/-- Witness for `c6_call_put_ratio_guard`: with 0 puts the ratio equals
the raw call count. -/
theorem c6_call_put_ratio_guard_witness :
    (calculateCallPutRatio exC6calls).ratio =
      ((calculateCallPutRatio exC6calls).calls : Rat) :=
  (c6_call_put_ratio_guard exC6calls).1 (by decide)

/-- C7: the summary's risk level is `high` iff strictly more than 2
anomalies have severity `high`; otherwise `medium` iff the anomaly count
strictly exceeds 3; otherwise `low`; and the summary always carries the
record, pattern and anomaly counts. -/
theorem c7_summary_risk_level (flows : List FlowRecord) (patterns : List DetectedPattern)
    (anomalies : List FlowAnomaly) :
    ((generateSummary flows patterns anomalies).riskLevel = "high" ↔
      2 < (anomalies.filter (fun a => a.severity = "high")).length) ∧
    ((anomalies.filter (fun a => a.severity = "high")).length ≤ 2 →
      ((generateSummary flows patterns anomalies).riskLevel = "medium" ↔
        3 < anomalies.length)) ∧
    ((anomalies.filter (fun a => a.severity = "high")).length ≤ 2 →
      anomalies.length ≤ 3 →
      (generateSummary flows patterns anomalies).riskLevel = "low") ∧
    (generateSummary flows patterns anomalies).totalFlowsAnalyzed = flows.length ∧
    (generateSummary flows patterns anomalies).patternsDetected = patterns.length ∧
    (generateSummary flows patterns anomalies).anomaliesFound = anomalies.length := by
  simp only [generateSummary]
  refine ⟨?_, ?_, ?_, trivial, trivial, trivial⟩
  · by_cases h1 : 2 < (anomalies.filter (fun a => a.severity = "high")).length
    · rw [if_pos h1]
      exact ⟨fun _ => h1, fun _ => rfl⟩
    · rw [if_neg h1]
      by_cases h2 : 3 < anomalies.length
      · rw [if_pos h2]
        exact ⟨fun h => absurd h (by decide), fun h => absurd h h1⟩
      · rw [if_neg h2]
        exact ⟨fun h => absurd h (by decide), fun h => absurd h h1⟩
  · intro h1
    rw [if_neg (by omega)]
    by_cases h2 : 3 < anomalies.length
    · rw [if_pos h2]
      exact ⟨fun _ => h2, fun _ => rfl⟩
    · rw [if_neg h2]
      exact ⟨fun h => absurd h (by decide), fun h => absurd h h2⟩
  · intro h1 h2
    rw [if_neg (by omega), if_neg (by omega)]

/-- Witness for `c7_summary_risk_level`: with no anomalies at all the
risk level is `low`. -/
theorem c7_summary_risk_level_witness :
    (generateSummary [] [] []).riskLevel = "low" :=
  (c7_summary_risk_level [] [] []).2.2.1 (by decide) (by decide)

/-- C10: for an empty current record set the summary reports zero
records analyzed, an empty top-ticker list, and market sentiment
`bearish` — the empty call/put ratio is 0, which falls below the 0.8
bearish threshold, so the sentiment is not `neutral`. -/
theorem c10_empty_current_summary (now : Nat) (historical : List FlowRecord) :
    (analyzeFlowData now [] historical).summary.totalFlowsAnalyzed = 0 ∧
    (analyzeFlowData now [] historical).summary.topTickers = [] ∧
    (analyzeFlowData now [] historical).summary.marketSentiment = "bearish" ∧
    (calculateCallPutRatio []).ratio = 0 ∧
    (calculateCallPutRatio []).ratio < 8/10 := by
  refine ⟨?_, ?_, ?_, by decide, ?_⟩
  · rfl
  · show ((List.insertionSort (fun a b => b.2 ≤ a.2)
      ((groupByTicker []).map (fun g => (g.1, g.2.length)))).take 5) = []
    rfl
  · show (if (12/10 : Rat) < (calculateCallPutRatio []).ratio then "bullish"
      else if (calculateCallPutRatio []).ratio < (8/10 : Rat) then "bearish"
      else "neutral") = "bearish"
    rw [show (calculateCallPutRatio []).ratio = 0 from by decide]
    rw [if_neg (by norm_num), if_pos (by norm_num)]
  · rw [show (calculateCallPutRatio []).ratio = 0 from by decide]
    norm_num

/-- One record in hour 0, making after-hours activity 100% and hence
emitting a timing anomaly (whose `timestamp` is the run instant). -/
def exC9 : List FlowRecord := [⟨0, "T", 1000, "call", "buy"⟩]

theorem analyzeFlowData_anomalies_exC9 (n : Nat) :
    (analyzeFlowData n exC9 []).anomalies =
      [⟨"timing", "MARKET", "medium", .timing [(0, 1)], n⟩] := by
  show detectAnomalies n exC9 [] = _
  unfold detectAnomalies detectTimingAnomalies detectPremiumAnomalies
  rw [show afterHoursCount exC9 = 1 from by decide,
    show exC9.length = 1 from by decide,
    show hourlyActivityEntries exC9 = [(0, 1)] from by decide]
  rw [if_pos (by norm_num : ((1 : Nat) : Rat) * (3/10) < ((1 : Nat) : Rat)),
    if_pos (by decide : ([] : List FlowRecord).length = 0)]
  rfl

/-- C9 counterexample: two runs of the full analysis over identical
inputs but at different wall-clock instants give different results —
the emitted anomalies carry the run instant in their `timestamp`
field (`new Date()` at aiAnalysis.ts:324/351), so the engine is not a
pure function of the record inputs alone. -/
theorem c9_counterexample :
    analyzeFlowData 0 exC9 [] ≠ analyzeFlowData 1 exC9 [] := by
  intro h
  have h2 := congrArg FlowAnalysisResult.anomalies h
  rw [analyzeFlowData_anomalies_exC9 0, analyzeFlowData_anomalies_exC9 1] at h2
  exact absurd (congrArg FlowAnomaly.timestamp (List.cons.inj h2).1) (by decide)

theorem detectAnomalies_timestamp (now now0 : Nat) (flows historical : List FlowRecord) :
    detectAnomalies now flows historical =
      (detectAnomalies now0 flows historical).map
        (fun a => { a with timestamp := now }) := by
  unfold detectAnomalies
  rw [List.map_append]
  congr 1
  · unfold detectTimingAnomalies
    by_cases h1 : (flows.length : Rat) * (3/10) < (afterHoursCount flows : Rat)
    · rw [if_pos h1, if_pos h1]
      rfl
    · rw [if_neg h1, if_neg h1]
      rfl
  · unfold detectPremiumAnomalies
    by_cases h2 : historical.length = 0
    · rw [if_pos h2, if_pos h2]
      rfl
    · rw [if_neg h2, if_neg h2]
      simp only []
      by_cases h3 : (1/2 : Rat) <
          |(meanPremium flows - meanPremium historical) / meanPremium historical|
      · rw [if_pos h3, if_pos h3]
        rfl
      · rw [if_neg h3, if_neg h3]
        rfl

theorem generateSummary_map_timestamp (flows : List FlowRecord)
    (patterns : List DetectedPattern) (anomalies : List FlowAnomaly) (now : Nat) :
    generateSummary flows patterns
        (anomalies.map (fun a => { a with timestamp := now })) =
      generateSummary flows patterns anomalies := by
  unfold generateSummary
  rw [List.filter_map, List.length_map, List.length_map]
  rfl

/-- C9 (amended): the analysis is a pure function of the record inputs
and the run instant; two runs over identical inputs agree exactly on
insights, patterns and summary, and their anomalies agree except for
the `timestamp` field, which records the wall-clock run instant. -/
theorem c9_determinism_modulo_timestamp (now1 now2 : Nat)
    (flows historical : List FlowRecord) :
    (analyzeFlowData now1 flows historical).insights =
      (analyzeFlowData now2 flows historical).insights ∧
    (analyzeFlowData now1 flows historical).patterns =
      (analyzeFlowData now2 flows historical).patterns ∧
    (analyzeFlowData now1 flows historical).summary =
      (analyzeFlowData now2 flows historical).summary ∧
    (analyzeFlowData now1 flows historical).anomalies.map FlowAnomaly.stripTimestamp =
      (analyzeFlowData now2 flows historical).anomalies.map FlowAnomaly.stripTimestamp ∧
    analyzeFlowData now1 flows historical = analyzeFlowData now1 flows historical := by
  refine ⟨rfl, rfl, ?_, ?_, rfl⟩
  · show generateSummary flows (detectPatterns flows historical)
        (detectAnomalies now1 flows historical) =
      generateSummary flows (detectPatterns flows historical)
        (detectAnomalies now2 flows historical)
    rw [detectAnomalies_timestamp now1 now2 flows historical,
      generateSummary_map_timestamp]
  · show (detectAnomalies now1 flows historical).map FlowAnomaly.stripTimestamp =
      (detectAnomalies now2 flows historical).map FlowAnomaly.stripTimestamp
    rw [detectAnomalies_timestamp now1 now2 flows historical, List.map_map]
    rfl

theorem unusualVolumeInsights_desc (flows historical : List FlowRecord) :
    ∀ i ∈ unusualVolumeInsights flows historical,
      ∃ t r c h d, i.desc = InsightDesc.unusualVolume t r c h d := by
  intro i hi
  unfold unusualVolumeInsights at hi
  rw [List.mem_filterMap] at hi
  obtain ⟨g, -, heq⟩ := hi
  simp only [] at heq
  split at heq
  · cases Option.some.inj heq
    exact ⟨_, _, _, _, _, rfl⟩
  · exact absurd heq (by simp)

theorem sentimentShiftInsights_desc (flows historical : List FlowRecord) :
    ∀ i ∈ sentimentShiftInsights flows historical,
      ∃ a b c, i.desc = InsightDesc.sentimentShift a b c := by
  intro i hi
  unfold sentimentShiftInsights at hi
  simp only [] at hi
  split at hi
  · rw [List.mem_singleton] at hi
    subst hi
    exact ⟨_, _, _, rfl⟩
  · exact absurd hi (by simp)

/-- The one insight that `highValueInsights` can emit. -/
def theHighValueInsight (flows historical : List FlowRecord) : AIInsight :=
  { kind := "trend", title := "High-Value Flow Activity", confidence := 85/100,
    desc := InsightDesc.highValue
      (flows.filter (fun f => (500000 : Rat) < f.premium)).length
      (decide (0 < highValueChangePercent flows historical))
      |highValueChangePercent flows historical|
      (flows.filter (fun f => (500000 : Rat) < f.premium)) }

/-- C1 (amended): the engine (src/lib/aiAnalysis.ts) emits the
high-value-flow insight iff some current record has premium above
$500K, with confidence exactly 0.85 and the percentage change
`(todayCount − histCount) / max(histCount, 1) × 100`; when the
historical count is zero this change is reported as "up" at
`todayCount × 100` percent — not unconditionally at 100%.  The
repository's second copy (src/unnamed/part_000) is the variant that
does report exactly "up 100%" when the historical count is zero. -/
theorem c1_high_value_insight (flows historical : List FlowRecord) :
    ((∃ i ∈ generateInsights flows historical,
        ∃ n u a d, i.desc = InsightDesc.highValue n u a d) ↔
      flows.filter (fun f => (500000 : Rat) < f.premium) ≠ []) ∧
    (∀ i ∈ generateInsights flows historical,
      (∃ n u a d, i.desc = InsightDesc.highValue n u a d) →
      i = theHighValueInsight flows historical) ∧
    ((historical.filter (fun f => (500000 : Rat) < f.premium)).length = 0 →
      flows.filter (fun f => (500000 : Rat) < f.premium) ≠ [] →
      0 < highValueChangePercent flows historical ∧
      highValueChangePercent flows historical =
        ((flows.filter (fun f => (500000 : Rat) < f.premium)).length : Rat) * 100) ∧
    ((historical.filter (fun f => (500000 : Rat) < f.premium)).length = 0 →
      flows.filter (fun f => (500000 : Rat) < f.premium) ≠ [] →
      generateInsightsPart0 flows historical =
        [{ kind := "trend", title := "High-Value Flow Activity", confidence := 85/100,
           desc := InsightDesc.highValue
             (flows.filter (fun f => (500000 : Rat) < f.premium)).length true 100
             (flows.filter (fun f => (500000 : Rat) < f.premium)) }]) := by
  refine ⟨⟨?_, ?_⟩, ?_, ?_, ?_⟩
  · rintro ⟨i, hi, hdesc⟩
    simp only [generateInsights, List.mem_append] at hi
    rcases hi with (hi | hi) | hi
    · unfold highValueInsights at hi
      simp only [] at hi
      split at hi
      · case _ h => exact List.length_pos.1 h
      · exact absurd hi (by simp)
    · obtain ⟨t, r, c, h, d, hvol⟩ := unusualVolumeInsights_desc flows historical i hi
      obtain ⟨n, u, a, dd, hh⟩ := hdesc
      rw [hvol] at hh
      exact absurd hh (by simp)
    · obtain ⟨a, b, c, hsent⟩ := sentimentShiftInsights_desc flows historical i hi
      obtain ⟨n, u, aa, dd, hh⟩ := hdesc
      rw [hsent] at hh
      exact absurd hh (by simp)
  · intro hne
    have hmem : theHighValueInsight flows historical ∈ generateInsights flows historical := by
      simp only [generateInsights, List.mem_append]
      refine Or.inl (Or.inl ?_)
      unfold highValueInsights
      simp only []
      rw [if_pos (List.length_pos.2 hne)]
      exact List.mem_singleton.2 rfl
    exact ⟨theHighValueInsight flows historical, hmem, _, _, _, _, rfl⟩
  · intro i hi hdesc
    simp only [generateInsights, List.mem_append] at hi
    rcases hi with (hi | hi) | hi
    · unfold highValueInsights at hi
      simp only [] at hi
      split at hi
      · rw [List.mem_singleton] at hi
        exact hi
      · exact absurd hi (by simp)
    · obtain ⟨t, r, c, h, d, hvol⟩ := unusualVolumeInsights_desc flows historical i hi
      obtain ⟨n, u, a, dd, hh⟩ := hdesc
      rw [hvol] at hh
      exact absurd hh (by simp)
    · obtain ⟨a, b, c, hsent⟩ := sentimentShiftInsights_desc flows historical i hi
      obtain ⟨n, u, aa, dd, hh⟩ := hdesc
      rw [hsent] at hh
      exact absurd hh (by simp)
  · intro h0 hne
    have hn : 0 < (flows.filter (fun f => (500000 : Rat) < f.premium)).length :=
      List.length_pos.2 hne
    simp only [highValueChangePercent]
    rw [h0]
    simp only [Nat.cast_zero, sub_zero]
    rw [max_eq_right (by norm_num : (0 : Rat) ≤ 1), div_one]
    refine ⟨?_, rfl⟩
    have hq : (0 : Rat) < (flows.filter (fun f => (500000 : Rat) < f.premium)).length := by
      exact_mod_cast hn
    exact mul_pos hq (by norm_num)
  · intro h0 hne
    have hcp : highValueChangePercentPart0 flows historical = 100 := by
      simp only [highValueChangePercentPart0]
      rw [h0, if_neg (lt_irrefl 0)]
    unfold generateInsightsPart0
    simp only []
    rw [hcp, if_pos (List.length_pos.2 hne)]
    rw [show decide ((0 : Rat) < 100) = true from by norm_num,
      show |(100 : Rat)| = 100 from abs_of_pos (by norm_num)]

/-- Five current records of one ticker, two above $500K (premiums
600,000 and 700,000), one call and four puts so that no sentiment-shift
insight fires against an empty historical set. -/
def exC1 : List FlowRecord :=
  [⟨0, "AAA", 600000, "call", "buy"⟩,
   ⟨1, "AAA", 700000, "put", "buy"⟩,
   ⟨2, "AAA", 1000, "put", "buy"⟩,
   ⟨3, "AAA", 1000, "put", "buy"⟩,
   ⟨4, "AAA", 1000, "put", "buy"⟩]

/-- C1 counterexample: with two current records above $500K and an
empty historical set, the engine reports the change as "up 200.0%"
(todayCount × 100), not the claimed unconditional 100%. -/
theorem c1_counterexample :
    generateInsights exC1 [] =
      [{ kind := "trend", title := "High-Value Flow Activity", confidence := 85/100,
         desc := InsightDesc.highValue 2 true 200
           [⟨0, "AAA", 600000, "call", "buy"⟩, ⟨1, "AAA", 700000, "put", "buy"⟩] }] ∧
    (200 : Rat) ≠ 100 := by
  have hfil : exC1.filter (fun f => (500000 : Rat) < f.premium) =
      [⟨0, "AAA", 600000, "call", "buy"⟩, ⟨1, "AAA", 700000, "put", "buy"⟩] := by
    norm_num [exC1, List.filter]
  have hmax : (((List.filter (fun f => (500000 : Rat) < f.premium)
      ([] : List FlowRecord)).length : Rat) ⊔ 1) = 1 := by
    rw [List.filter_nil, List.length_nil, Nat.cast_zero]
    exact max_eq_right (by norm_num)
  have hcp : highValueChangePercent exC1 [] = 200 := by
    simp only [highValueChangePercent]
    rw [hfil, hmax]
    norm_num
  constructor
  · have hhv : highValueInsights exC1 [] =
        [{ kind := "trend", title := "High-Value Flow Activity", confidence := 85/100,
           desc := InsightDesc.highValue 2 true 200
             [⟨0, "AAA", 600000, "call", "buy"⟩, ⟨1, "AAA", 700000, "put", "buy"⟩] }] := by
      unfold highValueInsights
      simp only []
      rw [hfil, hcp]
      rw [if_pos (by decide : 0 <
        ([⟨0, "AAA", 600000, "call", "buy"⟩,
          ⟨1, "AAA", 700000, "put", "buy"⟩] : List FlowRecord).length)]
      rw [show decide ((0 : Rat) < 200) = true from by norm_num,
        show |(200 : Rat)| = 200 from abs_of_pos (by norm_num)]
      rfl
    have hvol : unusualVolumeInsights exC1 [] = [] := by
      rw [List.eq_nil_iff_forall_not_mem]
      intro i hi
      unfold unusualVolumeInsights at hi
      rw [List.mem_filterMap] at hi
      obtain ⟨g, hg, heq⟩ := hi
      rw [show groupByTicker exC1 = [("AAA", exC1)] from by decide,
        List.mem_singleton] at hg
      subst hg
      simp only [] at heq
      split at heq
      · case _ hcond => exact absurd hcond.2 (by decide)
      · exact absurd heq (by simp)
    have hsent : sentimentShiftInsights exC1 [] = [] := by
      have hcalls : (exC1.filter isCall).length = 1 := by decide
      have hputs : (exC1.filter isPut).length = 4 := by decide
      have hr1 : (calculateCallPutRatio exC1).ratio = 1/4 := by
        simp only [calculateCallPutRatio]
        rw [hcalls, hputs, if_neg (by norm_num)]
        norm_num
      have hr2 : (calculateCallPutRatio []).ratio = 0 := by decide
      unfold sentimentShiftInsights
      simp only []
      rw [hr1, hr2, sub_zero, abs_of_pos (by norm_num : (0 : Rat) < 1/4)]
      rw [if_neg (by norm_num : ¬ ((3/10 : Rat) < 1/4))]
    rw [generateInsights, hhv, hvol, hsent]
    rfl
  · norm_num

/-- Witness for `c1_high_value_insight`: at the concrete input `exC1`
with empty historical data the change is positive (reported "up") and
equals todayCount × 100 = 200. -/
theorem c1_high_value_insight_witness :
    0 < highValueChangePercent exC1 [] ∧
    highValueChangePercent exC1 [] =
      ((exC1.filter (fun f => (500000 : Rat) < f.premium)).length : Rat) * 100 :=
  (c1_high_value_insight exC1 []).2.2.1 (by decide) (by decide)

/-! ### C8: row-level error handling of the CSV normalizer -/

/-- The per-`Except` error projection used to collect the error list. -/
def errToOption : Except String OptionsFlowRecord → Option String
  | .error e => some e
  | .ok _ => none

theorem processRow_missing (i : Nat) (row : CsvRow) (hmiss : missingRequired row ≠ []) :
    processRow i row = .error (rowError i
      ("Missing required fields: " ++ String.intercalate ", " (missingRequired row))) := by
  unfold processRow
  cases hb : (!truthy row.time_of_trade || !truthy row.ticker_symbol || !truthy row.premium
      || !truthy row.option_type || !truthy row.trade_type) with
  | true => rfl
  | false =>
    exfalso
    simp only [Bool.or_eq_false_iff, Bool.not_eq_false'] at hb
    obtain ⟨⟨⟨⟨h1, h2⟩, h3⟩, h4⟩, h5⟩ := hb
    simp [missingRequired, h1, h2, h3, h4, h5] at hmiss

theorem mem_processAll (start i : Nat) (rows : List CsvRow) (row : CsvRow)
    (h : rows.get? i = some row) :
    processRow (start + i) row ∈ processAll start rows := by
  induction rows generalizing start i with
  | nil => simp at h
  | cons r rs ih =>
    cases i with
    | zero =>
      rw [List.get?_cons_zero] at h
      cases Option.some.inj h
      rw [Nat.add_zero]
      exact List.mem_cons_self _ _
    | succ n =>
      rw [List.get?_cons_succ] at h
      have := ih (start + 1) n h
      rw [show start + (n + 1) = start + 1 + n by omega]
      exact List.mem_cons_of_mem _ this

theorem processAll_length_split (start : Nat) (rows : List CsvRow) :
    ((processAll start rows).filterMap Except.toOption).length +
      ((processAll start rows).filterMap errToOption).length = rows.length := by
  induction rows generalizing start with
  | nil => rfl
  | cons r rs ih =>
    show ((processRow start r :: processAll (start + 1) rs).filterMap Except.toOption).length
      + ((processRow start r :: processAll (start + 1) rs).filterMap errToOption).length
      = rs.length + 1
    cases hpr : processRow start r with
    | ok rec =>
      simp only [List.filterMap_cons, hpr, Except.toOption, errToOption]
      rw [List.length_cons]
      have := ih (start + 1)
      omega
    | error e =>
      simp only [List.filterMap_cons, hpr, Except.toOption, errToOption]
      rw [List.length_cons]
      have := ih (start + 1)
      omega

/-- C8: each CSV row yields exactly one outcome — a returned record or
one error string — so data plus errors account for every row; a row
missing required fields is turned into the single row-indexed error
naming exactly its missing fields (and is thereby excluded from the
data); and every row that does validate is present in the returned
data, so one bad row is not fatal to the batch. -/
theorem c8_missing_required_fields (rows : List CsvRow) :
    ((parseCSVRows rows).data.length + (parseCSVRows rows).errors.length = rows.length) ∧
    ((parseCSVRows rows).totalRecords = rows.length) ∧
    (∀ i row, rows.get? i = some row → missingRequired row ≠ [] →
      processRow i row = .error (rowError i
        ("Missing required fields: " ++ String.intercalate ", " (missingRequired row))) ∧
      (rowError i ("Missing required fields: " ++
        String.intercalate ", " (missingRequired row))) ∈ (parseCSVRows rows).errors) ∧
    (∀ i row rec, rows.get? i = some row → processRow i row = .ok rec →
      rec ∈ (parseCSVRows rows).data) := by
  refine ⟨?_, rfl, ?_, ?_⟩
  · show ((processAll 0 rows).filterMap Except.toOption).length +
        ((processAll 0 rows).filterMap (fun r =>
          match r with
          | .error e => some e
          | .ok _ => none)).length = rows.length
    exact processAll_length_split 0 rows
  · intro i row hget hmiss
    refine ⟨processRow_missing i row hmiss, ?_⟩
    show _ ∈ (processAll 0 rows).filterMap (fun r =>
      match r with
      | .error e => some e
      | .ok _ => none)
    rw [List.mem_filterMap]
    refine ⟨processRow i row, ?_, ?_⟩
    · have := mem_processAll 0 i rows row hget
      rwa [Nat.zero_add] at this
    · rw [processRow_missing i row hmiss]
  · intro i row rec hget hok
    show rec ∈ (processAll 0 rows).filterMap Except.toOption
    rw [List.mem_filterMap]
    refine ⟨processRow i row, ?_, ?_⟩
    · have := mem_processAll 0 i rows row hget
      rwa [Nat.zero_add] at this
    · rw [hok]
      rfl

/-- A fully valid CSV row. -/
def exRowOk : CsvRow :=
  ⟨some "2025-07-15 09:30:00", some "aapl", some "1000", some "call", some "sweep"⟩

/-- A row whose `ticker_symbol` is absent and whose `premium` is the
empty string: two missing required fields. -/
def exRowMissing : CsvRow :=
  ⟨some "2025-07-15 09:31:00", none, some "", some "put", some "buy"⟩

/-- A three-row batch: valid, missing-fields, valid. -/
def exC8rows : List CsvRow := [exRowOk, exRowMissing, exRowOk]

/-- Witness for `c8_missing_required_fields`: in the three-row batch the
middle row is rejected with one error naming both of its missing fields,
while both valid rows are still returned. -/
theorem c8_missing_required_fields_witness :
    (processRow 1 exRowMissing = .error (rowError 1
      ("Missing required fields: " ++
        String.intercalate ", " (missingRequired exRowMissing))) ∧
      (rowError 1 ("Missing required fields: " ++
        String.intercalate ", " (missingRequired exRowMissing)))
        ∈ (parseCSVRows exC8rows).errors) ∧
    (parseCSVRows exC8rows).data.length + (parseCSVRows exC8rows).errors.length = 3 := by
  constructor
  · exact (c8_missing_required_fields exC8rows).2.2.1 1 exRowMissing rfl (by decide)
  · exact (c8_missing_required_fields exC8rows).1

end Flowbeast
